import Mathlib

/-!
# Storyboard-generator: formal model of the playback engine and the shot store

A shallow embedding of the TypeScript sources of the Storyboard-generator
repository, together with theorems about the behaviour of the animatic
playback engine and of the project/storyboard/shot store operations.

Conventions of the embedding:
* TypeScript numbers that hold seconds are modelled by `ℚ` (the code only ever
  adds and compares them; rational arithmetic is the idealisation of the
  IEEE doubles used at run time, and every claim below is stated at a
  granularity that is insensitive to the difference).
* A TypeScript optional field (`x?: T`) is modelled by `Option T`.  A JS
  property that is *present but `undefined`* (as produced by
  `{ ...s, imageUrl: undefined }`) and an absent property both behave like
  `undefined` on read, so both are `none`.
* A JS expression that dereferences `undefined` (a `TypeError`) is modelled by
  an `Option`-valued function returning `none`.
-/

namespace SBGen

/-- `Shot` record, from `src/types.ts` (`interface Shot`). -/
structure Shot where
  id : String
  number : Nat
  duration : ℚ
  title : String
  cameraAngle : Option String
  imageUrl : Option String
  isGenerating : Option Bool
  lastGeneratedPrompt : Option String
deriving DecidableEq

/-- `Storyboard` record, from `src/types.ts` (`interface Storyboard`). -/
structure Storyboard where
  id : String
  name : String
  shots : List Shot
deriving DecidableEq

/-- `Project` record, from `src/types.ts` (`interface Project`).  The
`aspectRatio` union type is modelled by `String`. -/
structure Project where
  id : String
  name : String
  storyboards : List Storyboard
  activeStoryboardId : String
  aspectRatio : String
deriving DecidableEq

/-! ## The tick-based animatic player (`AnimaticPlayer` in `src/types.ts`)

The component keeps three pieces of React state:
`currentShotIndex` (initial `0`), `isPlaying` (initial `true`) and
`elapsedTime` (initial `0`).  While `isPlaying` is true a 100 ms interval
fires; each firing runs the callback embedded in `tick` below.  No interval
exists while `isPlaying` is false (the effect tears it down), which the model
renders as `tick` being the identity on paused states. -/

/-- State of the tick-based player (`src/types.ts`, `AnimaticPlayer`). -/
structure PlayerState where
  currentShotIndex : Nat
  isPlaying : Bool
  elapsedTime : ℚ
deriving DecidableEq

/-- The tick interval: `const tick = 100` ms, added as `tick / 1000` seconds. -/
def tickInterval : ℚ := 1 / 10

/-- `currentShotStartTime` in `src/types.ts`:
`shots.slice(0, currentShotIndex).reduce((acc, s) => acc + s.duration, 0)`. -/
def currentShotStartTime (shots : List Shot) (i : Nat) : ℚ :=
  ((shots.take i).map Shot.duration).sum

/-- `totalDuration` in `src/types.ts`:
`shots.reduce((acc, s) => acc + s.duration, 0)`. -/
def totalDuration (shots : List Shot) : ℚ :=
  (shots.map Shot.duration).sum

/-- Duration of the shot at index `i` (`shots[i].duration`); `0` as the
out-of-range default, used only in statements whose hypotheses put `i` in
range. -/
def durationAt (shots : List Shot) (i : Nat) : ℚ :=
  ((shots.get? i).map Shot.duration).getD 0

/-- The spec's derived quantity `shotEndTime(i) = shotStartTime(i) + duration(i)`,
matching `const shotEndTime = currentShotStartTime + currentShot.duration`. -/
def shotEndTime (shots : List Shot) (i : Nat) : ℚ :=
  currentShotStartTime shots i + durationAt shots i

/-- One firing of the interval callback of `AnimaticPlayer` in `src/types.ts`
(lines 232–253):

```
setElapsedTime(prev => {
  const nextTime = prev + (tick / 1000);
  const shotEndTime = currentShotStartTime + currentShot.duration;
  if (nextTime >= shotEndTime) {
    if (currentShotIndex < shots.length - 1) {
      setCurrentShotIndex(currentShotIndex + 1);
    } else {
      setIsPlaying(false); // End of sequence
      return prev; // Stop at end
    }
  }
  return nextTime;
});
```

The `none` branch of the `match` is unreachable from any state whose index is
in range (every theorem below carries that hypothesis); the code would throw
there (`currentShot` is `undefined`), and no later state exists.  Paused
states have no interval, hence no state change. -/
def tick (shots : List Shot) (s : PlayerState) : PlayerState :=
  if s.isPlaying then
    match shots.get? s.currentShotIndex with
    | none => s
    | some currentShot =>
      let nextTime := s.elapsedTime + tickInterval
      if nextTime ≥ currentShotStartTime shots s.currentShotIndex + currentShot.duration then
        if s.currentShotIndex < shots.length - 1 then
          { s with currentShotIndex := s.currentShotIndex + 1, elapsedTime := nextTime }
        else
          { s with isPlaying := false }
      else
        { s with elapsedTime := nextTime }
  else s

/-- Mounting `AnimaticPlayer` (`src/types.ts`): state is initialised to
`currentShotIndex = 0`, `isPlaying = true`, `elapsedTime = 0`, and the first
render unconditionally dereferences the current shot
(`String(currentShot.number)` at line 295).  With an empty `shots` array
`shots[0]` is `undefined` and the dereference throws a `TypeError`; the model
returns `none` for that failure. -/
def openPlayer (shots : List Shot) : Option PlayerState :=
  match shots.get? 0 with
  | none => none
  | some _ => some { currentShotIndex := 0, isPlaying := true, elapsedTime := 0 }

/-! ## The simple per-shot-timeout player (`AnimaticPlayer` inline in `src/App.tsx`)

`src/App.tsx` contains a second player (lines 80–120).  It keeps only
`currentIndex` and `isPlaying`; its effect arms one `setTimeout` of the
current shot's duration, with dependencies `[currentIndex, isPlaying, shots]`.
`shotElapsed` below models how long the currently armed timeout has been
pending (time since the effect last ran for this `(currentIndex, isPlaying)`
pair). -/

/-- State of the simple player in `src/App.tsx`, extended with the pending
timer's age (`shotElapsed`) so that timer re-arming is observable. -/
structure SimplePlayerState where
  currentIndex : Nat
  isPlaying : Bool
  shotElapsed : ℚ
deriving DecidableEq

/-- The skip-previous button of the `src/App.tsx` player (line 112):
`onClick={() => setCurrentIndex(0)}` — the only restart control in the
repository.  If `currentIndex` is already `0` the state value is unchanged, so
the effect's dependencies do not change and the pending timeout is *not*
re-armed; otherwise the index change re-runs the effect, which clears the old
timeout and arms a fresh one (`shotElapsed := 0`). -/
def restartClick (s : SimplePlayerState) : SimplePlayerState :=
  if s.currentIndex = 0 then s
  else { currentIndex := 0, isPlaying := s.isPlaying, shotElapsed := 0 }

/-- The timeout of the simple player firing (`src/App.tsx` lines 91–97):
advance to the next shot (re-arming the timer) or stop at the end. -/
def simpleTimerFire (shots : List Shot) (s : SimplePlayerState) : SimplePlayerState :=
  if s.isPlaying then
    if s.currentIndex < shots.length - 1 then
      { currentIndex := s.currentIndex + 1, isPlaying := s.isPlaying, shotElapsed := 0 }
    else
      { s with isPlaying := false }
  else s

/-! ## Shot store operations (`src/App.tsx`)

The operations act on the active storyboard's shot list; the surrounding
project/storyboard plumbing is id-preserving `map`s and is elided. -/

/-- `Partial<Shot>` as used by `updateShot(shotId, updates)`.  A field that is
`none` is an absent key; for the optional `Shot` fields, `some none` is a key
that is present with value `undefined` (which `{ ...s, ...updates }` does copy
over the old value). -/
structure ShotPatch where
  id : Option String := none
  number : Option Nat := none
  duration : Option ℚ := none
  title : Option String := none
  cameraAngle : Option (Option String) := none
  imageUrl : Option (Option String) := none
  isGenerating : Option (Option Bool) := none
  lastGeneratedPrompt : Option (Option String) := none
deriving DecidableEq

/-- The JS object spread `{ ...s, ...updates }`: every key present in the
patch overrides the shot's field. -/
def applyPatch (p : ShotPatch) (s : Shot) : Shot :=
  { id := p.id.getD s.id
    number := p.number.getD s.number
    duration := p.duration.getD s.duration
    title := p.title.getD s.title
    cameraAngle := p.cameraAngle.getD s.cameraAngle
    imageUrl := p.imageUrl.getD s.imageUrl
    isGenerating := p.isGenerating.getD s.isGenerating
    lastGeneratedPrompt := p.lastGeneratedPrompt.getD s.lastGeneratedPrompt }

/-- `updateShot` (`src/App.tsx` lines 370–390), restricted to the active
storyboard's shot list:
`shots.map(s => s.id === shotId ? { ...s, ...updates } : s)`. -/
def updateShotList (shotId : String) (p : ShotPatch) (l : List Shot) : List Shot :=
  l.map fun s => if s.id == shotId then applyPatch p s else s

/-- `handleAddShot` (`src/App.tsx` lines 568–585): appends a fresh shot with
`number = shots.length + 1`, duration `2.0`, camera angle `"Wide Shot"`,
empty title and empty-string image.  The generated id (`shot-${Date.now()}`)
is a parameter. -/
def addShot (newId : String) (l : List Shot) : List Shot :=
  l ++ [{ id := newId
          number := l.length + 1
          duration := 2
          title := ""
          cameraAngle := some "Wide Shot"
          imageUrl := some ""
          isGenerating := none
          lastGeneratedPrompt := none }]

/-- `newShots.map((s, i) => ({ ...s, number: i + 1 }))`, written as structural
recursion with explicit running index `k` (`renumber` below starts at `1`). -/
def renumberFrom : Nat → List Shot → List Shot
  | _, [] => []
  | k, s :: rest => { s with number := k } :: renumberFrom (k + 1) rest

/-- Dense renumbering from 1, as performed by `deleteShot` and
`handleMoveShot`. -/
def renumber (l : List Shot) : List Shot :=
  renumberFrom 1 l

/-- `deleteShot` (`src/App.tsx` lines 587–595):
`shots.filter(s => s.id !== shotId).map((s, i) => ({ ...s, number: i + 1 }))`. -/
def deleteShot (shotId : String) (l : List Shot) : List Shot :=
  renumber (l.filter fun s => s.id != shotId)

/-- `newShots.splice(toIndex, 0, movedShot)`: insert at position `n`,
appending when `n` is past the end (JS `splice` clamps the index). -/
def insertAt (n : Nat) (a : Shot) : List Shot → List Shot
  | [] => [a]
  | x :: xs =>
    match n with
    | 0 => a :: x :: xs
    | k + 1 => x :: insertAt k a xs

/-- `handleMoveShot` (`src/App.tsx` lines 597–609): no-op when
`fromIndex === toIndex`; otherwise `splice` the element out of `fromIndex`,
`splice` it back in at `toIndex`, and renumber densely.  An out-of-range
`fromIndex` is a caller contract violation (spec §4.2, behaviour undefined);
the model leaves the list unchanged in that unreachable branch. -/
def moveShot (l : List Shot) (fromIndex toIndex : Nat) : List Shot :=
  if fromIndex = toIndex then l
  else
    match l.get? fromIndex with
    | none => l
    | some movedShot => renumber (insertAt toIndex movedShot (l.eraseIdx fromIndex))

/-- The spec's numbering invariant: the `number` fields are exactly
`1..len(sequence)` in list order. -/
abbrev dense (l : List Shot) : Prop :=
  l.map Shot.number = List.range' 1 l.length

/-! ## Image regeneration (`forceRegenerate`, `src/App.tsx` lines 392–410)

`generateShotSketch` (`src/unnamed/part_002`) is an external async call that
resolves to an image data URL or to `null` (it catches its own exceptions and
returns `null` on failure); its result is the `generatedImage` parameter.  In
the single-threaded model the two `updateShot` calls of `forceRegenerate`
compose sequentially. -/

/-- JS `String.prototype.trim`: strip leading and trailing whitespace
(executable embedding; Lean's built-in `String.trim` is equivalent but does
not reduce, being defined through `Substring` primitives). -/
def jsTrim (s : String) : String :=
  String.mk ((s.data.dropWhile Char.isWhitespace).reverse.dropWhile Char.isWhitespace).reverse

/-- `generatedImage || undefined`: JS `||` maps `null` *and* the empty string
to `undefined`. -/
def jsOrUndefined (g : Option String) : Option String :=
  match g with
  | none => none
  | some s => if s = "" then none else some s

/-- `forceRegenerate` (`src/App.tsx` lines 392–410), on the active
storyboard's shot list, with the generation result supplied as a parameter:

```
const shot = currentShots.find(s => s.id === shotId);
if (!shot) return;
const promptText = shot.title.trim();
if (!promptText) return;
updateShot(shotId, { isGenerating: true, imageUrl: undefined });
const generatedImage = await generateShotSketch(finalPrompt, ...);
updateShot(shotId, { isGenerating: false,
                     imageUrl: generatedImage || undefined,
                     lastGeneratedPrompt: promptText });
```
-/
def forceRegenerate (generatedImage : Option String) (shotId : String)
    (shots : List Shot) : List Shot :=
  match shots.find? (fun s => s.id == shotId) with
  | none => shots
  | some shot =>
    let promptText := jsTrim shot.title
    if promptText = "" then shots
    else
      let startPatch : ShotPatch := { isGenerating := some (some true), imageUrl := some none }
      let donePatch : ShotPatch :=
        { isGenerating := some (some false)
          imageUrl := some (jsOrUndefined generatedImage)
          lastGeneratedPrompt := some (some promptText) }
      updateShotList shotId donePatch (updateShotList shotId startPatch shots)

/-! ## Project-level operations (`src/App.tsx`) -/

/-- `handleNewProject` (`src/App.tsx` lines 441–451).  The source evaluates
`Date.now()` **three separate times** while building the object literal — once
for the project id, once for the default storyboard's id, and once for
`activeStoryboardId`:

```
const newProject: Project = {
  id: `p-${Date.now()}`,
  name: 'New Project',
  storyboards: [{ id: `sb-${Date.now()}`, name: 'Main Storyboard', shots: [] }],
  activeStoryboardId: `sb-${Date.now()}`,
  aspectRatio: '16:9'
};
updateProjects([...projects, newProject]);
```

The three clock readings are the parameters `t0`, `t1`, `t2` (in evaluation
order); nothing in the code forces `t1 = t2`. -/
def handleNewProject (t0 t1 t2 : Nat) (projects : List Project) : List Project :=
  projects ++
    [{ id := "p-" ++ toString t0
       name := "New Project"
       storyboards := [{ id := "sb-" ++ toString t1, name := "Main Storyboard", shots := [] }]
       activeStoryboardId := "sb-" ++ toString t2
       aspectRatio := "16:9" }]

/-- The storyboard branch of `executeDelete` (`src/App.tsx` lines 482–492):
filter the storyboard out; if no storyboard would remain, do nothing at all;
otherwise install the remaining list, re-pointing `activeStoryboardId` to
`remainingStoryboards[0].id` when the active one was deleted. -/
def deleteStoryboard (sid : String) (p : Project) : Project :=
  match p.storyboards.filter (fun sb => sb.id != sid) with
  | [] => p
  | first :: rest =>
    { p with
      storyboards := first :: rest
      activeStoryboardId :=
        if p.activeStoryboardId = sid then first.id else p.activeStoryboardId }

/-! ## Concrete data used by the claims -/

/-- The three-shot default sequence (`DEFAULT_SHOTS`, `src/App.tsx`
lines 227–255) with durations `[3.5, 2.0, 4.5]`; titles abbreviated (no claim
reads them). -/
def demoShots : List Shot :=
  [{ id := "1", number := 1, duration := 7 / 2, title := "Wide establishing shot"
     cameraAngle := some "Wide Shot", imageUrl := some "", isGenerating := none
     lastGeneratedPrompt := some "" },
   { id := "2", number := 2, duration := 2, title := "Extreme close-up"
     cameraAngle := some "Extreme Close Up", imageUrl := some "", isGenerating := none
     lastGeneratedPrompt := some "" },
   { id := "3", number := 3, duration := 9 / 2, title := "Medium shot"
     cameraAngle := some "Medium Shot", imageUrl := some "", isGenerating := none
     lastGeneratedPrompt := some "" }]

/-- Playback trace of the default sequence: the state after `k` ticks from the
freshly-opened player. -/
def demoRun (k : Nat) : PlayerState :=
  (tick demoShots)^[k] { currentShotIndex := 0, isPlaying := true, elapsedTime := 0 }

/-- Shots titled A, B, C numbered 1, 2, 3 (the `moveShot` example of the
spec). -/
def demoABC : List Shot :=
  [{ id := "a", number := 1, duration := 2, title := "A", cameraAngle := none
     imageUrl := none, isGenerating := none, lastGeneratedPrompt := none },
   { id := "b", number := 2, duration := 2, title := "B", cameraAngle := none
     imageUrl := none, isGenerating := none, lastGeneratedPrompt := none },
   { id := "c", number := 3, duration := 2, title := "C", cameraAngle := none
     imageUrl := none, isGenerating := none, lastGeneratedPrompt := none }]

/-- A two-shot sequence whose (positive) durations are both shorter than the
tick interval. -/
def shotsTiny : List Shot :=
  [{ id := "t1", number := 1, duration := 1 / 20, title := "T1", cameraAngle := none
     imageUrl := none, isGenerating := none, lastGeneratedPrompt := none },
   { id := "t2", number := 2, duration := 1 / 100, title := "T2", cameraAngle := none
     imageUrl := none, isGenerating := none, lastGeneratedPrompt := none }]

/-! ## Helper lemmas -/

theorem renumberFrom_length (l : List Shot) : ∀ k, (renumberFrom k l).length = l.length := by
  induction l with
  | nil => intro k; rfl
  | cons a rest ih => intro k; simp [renumberFrom, ih]

theorem renumberFrom_numbers (l : List Shot) :
    ∀ k, (renumberFrom k l).map Shot.number = List.range' k l.length := by
  induction l with
  | nil => intro k; rfl
  | cons a rest ih =>
    intro k
    simp [renumberFrom, ih, List.range'_succ]

theorem renumber_dense (l : List Shot) : dense (renumber l) := by
  show (renumber l).map Shot.number = List.range' 1 (renumber l).length
  rw [renumber, renumberFrom_numbers l 1, renumberFrom_length l 1]

theorem tick_index_lt (shots : List Shot) (s : PlayerState)
    (h : s.currentShotIndex < shots.length) :
    (tick shots s).currentShotIndex < shots.length := by
  cases hp : s.isPlaying with
  | false => simpa [tick, hp] using h
  | true =>
    cases hget : shots[s.currentShotIndex]? with
    | none => simpa [tick, hp, hget] using h
    | some sh =>
      simp only [tick, hp, List.get?_eq_getElem?, hget, if_true]
      split_ifs with h1 h2 <;> simp <;> omega

theorem iterate_tick_index_lt (shots : List Shot) (s : PlayerState)
    (h : s.currentShotIndex < shots.length) :
    ∀ k : Nat, ((tick shots)^[k] s).currentShotIndex < shots.length := by
  intro k
  induction k with
  | zero => simpa using h
  | succ k ih =>
    rw [Function.iterate_succ_apply']
    exact tick_index_lt shots _ ih

theorem openPlayer_inv (shots : List Shot) (s0 : PlayerState)
    (h : openPlayer shots = some s0) :
    s0 = { currentShotIndex := 0, isPlaying := true, elapsedTime := 0 } ∧
      0 < shots.length := by
  cases shots with
  | nil => simp [openPlayer] at h
  | cons a rest =>
    simp only [openPlayer, List.get?] at h
    exact ⟨(Option.some_injective _ h).symm, by simp⟩

/-! ## C1: the tick step -/

/-- **C1.** While the player is open over a non-empty sequence and
`isPlaying` is true, each tick works with `elapsedTime` advanced by exactly
the tick interval (0.1 s): if the advanced time is still short of
`shotEndTime(currentIndex)` the advanced time is stored; if it has reached
`shotEndTime(currentIndex)` and `currentIndex` is not the last index,
`currentIndex` increases by exactly one (never more, even when a shot is
shorter than the tick) and the advanced time is stored; otherwise
`isPlaying` becomes false (and the stored `elapsedTime` is left as it was —
see C10). -/
theorem tick_step_characterization (shots : List Shot) (s : PlayerState)
    (hp : s.isPlaying = true) (hi : s.currentShotIndex < shots.length) :
    (s.elapsedTime + tickInterval < shotEndTime shots s.currentShotIndex →
      tick shots s = { s with elapsedTime := s.elapsedTime + tickInterval }) ∧
    (shotEndTime shots s.currentShotIndex ≤ s.elapsedTime + tickInterval →
      s.currentShotIndex + 1 < shots.length →
      tick shots s = { s with currentShotIndex := s.currentShotIndex + 1,
                              elapsedTime := s.elapsedTime + tickInterval }) ∧
    (shotEndTime shots s.currentShotIndex ≤ s.elapsedTime + tickInterval →
      s.currentShotIndex + 1 = shots.length →
      tick shots s = { s with isPlaying := false }) := by
  have hget : shots[s.currentShotIndex]? = some shots[s.currentShotIndex] :=
    List.getElem?_eq_getElem hi
  have hend : shotEndTime shots s.currentShotIndex =
      currentShotStartTime shots s.currentShotIndex + shots[s.currentShotIndex].duration := by
    simp [shotEndTime, durationAt, hget]
  refine ⟨?_, ?_, ?_⟩
  · intro hlt
    rw [hend] at hlt
    simp [tick, hp, List.get?_eq_getElem?, hget, not_le.mpr hlt]
  · intro hge hnotlast
    rw [hend] at hge
    have hbr : s.currentShotIndex < shots.length - 1 := by omega
    simp [tick, hp, List.get?_eq_getElem?, hget, hge, hbr]
  · intro hge hlast
    rw [hend] at hge
    have hbr : ¬ s.currentShotIndex < shots.length - 1 := by omega
    simp [tick, hp, List.get?_eq_getElem?, hget, hge, hbr]

/-- Witness for C1: first tick of the freshly opened default sequence stores
`elapsedTime = 0.1` and keeps `currentShotIndex = 0`. -/
theorem tick_step_characterization_witness :
    tick demoShots { currentShotIndex := 0, isPlaying := true, elapsedTime := 0 } =
      { currentShotIndex := 0, isPlaying := true, elapsedTime := 0 + tickInterval } :=
  (tick_step_characterization demoShots
      { currentShotIndex := 0, isPlaying := true, elapsedTime := 0 }
      rfl (by decide)).1
    (by norm_num [shotEndTime, currentShotStartTime, durationAt, demoShots, tickInterval])

/-- Running `j` ticks that all stay strictly inside the current shot: the
index and playing flag are unchanged and `elapsedTime` advances by
`j · tickInterval`. -/
theorem iterate_tick_within (shots : List Shot) (s : PlayerState)
    (hp : s.isPlaying = true) (hi : s.currentShotIndex < shots.length) :
    ∀ j : Nat, s.elapsedTime + (j : ℚ) * tickInterval < shotEndTime shots s.currentShotIndex →
      (tick shots)^[j] s = { s with elapsedTime := s.elapsedTime + (j : ℚ) * tickInterval } := by
  intro j
  induction j with
  | zero => intro _; simp
  | succ j ih =>
    intro hbound
    have ht : (0:ℚ) < tickInterval := by norm_num [tickInterval]
    have hexp : ((j + 1 : ℕ) : ℚ) * tickInterval = (j : ℚ) * tickInterval + tickInterval := by
      push_cast
      ring
    rw [hexp] at hbound ⊢
    have hwithin : s.elapsedTime + (j : ℚ) * tickInterval <
        shotEndTime shots s.currentShotIndex := by linarith
    rw [Function.iterate_succ_apply', ih hwithin]
    have h1 := (tick_step_characterization shots
        { s with elapsedTime := s.elapsedTime + (j : ℚ) * tickInterval } hp hi).1
      (by simpa using (by linarith :
        s.elapsedTime + (j : ℚ) * tickInterval + tickInterval <
          shotEndTime shots s.currentShotIndex))
    rw [h1]
    have harith : s.elapsedTime + (j : ℚ) * tickInterval + tickInterval =
        s.elapsedTime + ((j : ℚ) * tickInterval + tickInterval) := by ring
    exact congrArg (fun x => ({ s with elapsedTime := x } : PlayerState)) harith

/-! ## C2: the index invariant -/

/-- **C2.** For every non-empty shot sequence, after any number of ticks from
the freshly opened player the current index satisfies
`currentShotIndex < shots.length` (it is a `Nat`, so `0 ≤` holds trivially),
and hence exactly one shot `shots[currentShotIndex]` is current. -/
theorem currentIndex_always_in_range (shots : List Shot) (s0 : PlayerState)
    (h : openPlayer shots = some s0) (k : Nat) :
    ((tick shots)^[k] s0).currentShotIndex < shots.length ∧
      ∃ sh, shots.get? ((tick shots)^[k] s0).currentShotIndex = some sh := by
  obtain ⟨hs0, hlen⟩ := openPlayer_inv shots s0 h
  have hlt : ((tick shots)^[k] s0).currentShotIndex < shots.length := by
    apply iterate_tick_index_lt
    rw [hs0]
    exact hlen
  exact ⟨hlt, shots.get ⟨_, hlt⟩, List.get?_eq_get hlt⟩

/-- Witness for C2: after 7 ticks of the default sequence the index is in
range. -/
theorem currentIndex_always_in_range_witness :
    ((tick demoShots)^[7] { currentShotIndex := 0, isPlaying := true, elapsedTime := 0 }).currentShotIndex <
      demoShots.length ∧
    ∃ sh, demoShots.get? (((tick demoShots)^[7]
      { currentShotIndex := 0, isPlaying := true, elapsedTime := 0 }).currentShotIndex) = some sh :=
  currentIndex_always_in_range demoShots
    { currentShotIndex := 0, isPlaying := true, elapsedTime := 0 } rfl 7

/-! ## C3: the concrete playback trace of the default sequence -/

/-- **C3.** Playing the default three-shot sequence (durations
`[3.5, 2.0, 4.5]`) from the freshly opened player: the index moves from 0 to
1 on the tick at which `elapsedTime` reaches 3.5 s, from 1 to 2 at 5.5 s,
`isPlaying` turns false on the tick whose advanced time reaches 10.0 s (the
stored `elapsedTime` holding 9.9 s), and the index never exceeds 2. -/
theorem demo_playback_trace :
    (demoRun 34).currentShotIndex = 0 ∧ (demoRun 34).isPlaying = true ∧
    (demoRun 35).currentShotIndex = 1 ∧ (demoRun 35).elapsedTime = 7 / 2 ∧
    (demoRun 54).currentShotIndex = 1 ∧
    (demoRun 55).currentShotIndex = 2 ∧ (demoRun 55).elapsedTime = 11 / 2 ∧
    (demoRun 99).isPlaying = true ∧
    (demoRun 100).isPlaying = false ∧ (demoRun 100).elapsedTime = 99 / 10 ∧
    (demoRun 100).currentShotIndex = 2 ∧
    ∀ k : Nat, (demoRun k).currentShotIndex ≤ 2 := by
  have step : ∀ k : Nat, demoRun (k + 1) = tick demoShots (demoRun k) := fun k =>
    Function.iterate_succ_apply' (tick demoShots) k _
  have jump : ∀ m n : Nat, demoRun (m + n) = (tick demoShots)^[m] (demoRun n) := fun m n =>
    Function.iterate_add_apply (tick demoShots) m n _
  have h34 : demoRun 34 = { currentShotIndex := 0, isPlaying := true, elapsedTime := 17 / 5 } := by
    have h := iterate_tick_within demoShots
      { currentShotIndex := 0, isPlaying := true, elapsedTime := 0 } rfl (by decide) 34
      (by norm_num [shotEndTime, currentShotStartTime, durationAt, demoShots, tickInterval])
    exact h.trans (by norm_num [tickInterval])
  have h35 : demoRun 35 = { currentShotIndex := 1, isPlaying := true, elapsedTime := 7 / 2 } := by
    rw [show (35:ℕ) = 34 + 1 from rfl, step, h34,
      (tick_step_characterization demoShots
        { currentShotIndex := 0, isPlaying := true, elapsedTime := 17 / 5 } rfl (by decide)).2.1
        (by norm_num [shotEndTime, currentShotStartTime, durationAt, demoShots, tickInterval])
        (by decide)]
    norm_num [tickInterval]
  have h54 : demoRun 54 = { currentShotIndex := 1, isPlaying := true, elapsedTime := 27 / 5 } := by
    rw [show (54:ℕ) = 19 + 35 from rfl, jump, h35,
      iterate_tick_within demoShots
        { currentShotIndex := 1, isPlaying := true, elapsedTime := 7 / 2 } rfl (by decide) 19
        (by norm_num [shotEndTime, currentShotStartTime, durationAt, demoShots, tickInterval])]
    norm_num [tickInterval]
  have h55 : demoRun 55 = { currentShotIndex := 2, isPlaying := true, elapsedTime := 11 / 2 } := by
    rw [show (55:ℕ) = 54 + 1 from rfl, step, h54,
      (tick_step_characterization demoShots
        { currentShotIndex := 1, isPlaying := true, elapsedTime := 27 / 5 } rfl (by decide)).2.1
        (by norm_num [shotEndTime, currentShotStartTime, durationAt, demoShots, tickInterval])
        (by decide)]
    norm_num [tickInterval]
  have h99 : demoRun 99 = { currentShotIndex := 2, isPlaying := true, elapsedTime := 99 / 10 } := by
    rw [show (99:ℕ) = 44 + 55 from rfl, jump, h55,
      iterate_tick_within demoShots
        { currentShotIndex := 2, isPlaying := true, elapsedTime := 11 / 2 } rfl (by decide) 44
        (by norm_num [shotEndTime, currentShotStartTime, durationAt, demoShots, tickInterval])]
    norm_num [tickInterval]
  have h100 : demoRun 100 =
      { currentShotIndex := 2, isPlaying := false, elapsedTime := 99 / 10 } := by
    rw [show (100:ℕ) = 99 + 1 from rfl, step, h99,
      (tick_step_characterization demoShots
        { currentShotIndex := 2, isPlaying := true, elapsedTime := 99 / 10 } rfl (by decide)).2.2
        (by norm_num [shotEndTime, currentShotStartTime, durationAt, demoShots, tickInterval])
        (by decide)]
  refine ⟨by rw [h34], by rw [h34], by rw [h35], by rw [h35], by rw [h54], by rw [h55],
    by rw [h55], by rw [h99], by rw [h100], by rw [h100], by rw [h100], ?_⟩
  intro k
  have h := iterate_tick_index_lt demoShots
    { currentShotIndex := 0, isPlaying := true, elapsedTime := 0 } (by decide) k
  rw [show demoShots.length = 3 from rfl] at h
  show (demoRun k).currentShotIndex ≤ 2
  unfold demoRun
  omega

/-! ## C4: opening on an empty sequence -/

/-- **C4 counterexample.** Opening the player on the empty shot sequence is
not a silent, error-free no-op: the first render dereferences the undefined
current shot (`currentShot.number`, `src/types.ts` line 295), raising a
`TypeError`.  In the model the mount fails (`none`) rather than yielding any
state without error, refuting "no error is raised". -/
theorem open_empty_errors : openPlayer ([] : List Shot) = none := rfl

/-- **C4 amended.** Opening the player on an empty shot sequence raises an
error — the undefined current shot is dereferenced, and neither the player
nor the `Play Animatic` caller guards the empty case; on every non-empty
sequence `open` initialises `currentIndex = 0`, `elapsedTime = 0`,
`isPlaying = true` without error. -/
theorem open_empty_amended :
    openPlayer ([] : List Shot) = none ∧
    ∀ shots : List Shot, shots ≠ [] →
      openPlayer shots =
        some { currentShotIndex := 0, isPlaying := true, elapsedTime := 0 } := by
  refine ⟨rfl, ?_⟩
  intro shots hne
  cases shots with
  | nil => exact absurd rfl hne
  | cons a rest => rfl

/-- Witness for C4 (amended): the default sequence is non-empty and opens in
the initial playing state. -/
theorem open_empty_amended_witness :
    openPlayer demoShots =
      some { currentShotIndex := 0, isPlaying := true, elapsedTime := 0 } :=
  open_empty_amended.2 demoShots (by decide)

/-! ## C5: restart -/

/-- **C5 counterexample.** "restart() sets `currentIndex` to 0 and
`elapsedTime` to 0 regardless of prior state" fails: restarting while already
on shot 0 changes nothing at all — in particular the in-flight shot timer
(3 s old here) keeps running, because `setCurrentIndex(0)` does not change the
timer effect's dependencies, so the pending timeout is not re-armed. -/
theorem restart_on_first_shot_counterexample :
    restartClick { currentIndex := 0, isPlaying := true, shotElapsed := 3 } =
      { currentIndex := 0, isPlaying := true, shotElapsed := 3 } ∧
    (restartClick { currentIndex := 0, isPlaying := true, shotElapsed := 3 }).shotElapsed ≠ 0 := by
  constructor
  · rfl
  · show (3 : ℚ) ≠ 0
    norm_num

/-- **C5 amended.** `restart` (the skip-previous control, the repository's
only restart) sets `currentIndex` to 0 and leaves `isPlaying` unchanged; the
current shot's timer is re-armed (elapsed time within the shot reset to 0)
only when the prior `currentIndex` was nonzero — restarting while on shot 0
leaves the entire state, including the pending timer, unchanged.  (The
tick-based player owning the global `elapsedTime` has no restart control at
all.) -/
theorem restart_amended (s : SimplePlayerState) :
    (restartClick s).currentIndex = 0 ∧
    (restartClick s).isPlaying = s.isPlaying ∧
    (s.currentIndex ≠ 0 → (restartClick s).shotElapsed = 0) ∧
    (s.currentIndex = 0 → restartClick s = s) := by
  by_cases h : s.currentIndex = 0 <;> simp [restartClick, h]

/-- Witness for C5 (amended): restarting from shot 2 re-arms the timer. -/
theorem restart_amended_witness :
    (restartClick { currentIndex := 2, isPlaying := false, shotElapsed := 5 }).shotElapsed = 0 :=
  (restart_amended { currentIndex := 2, isPlaying := false, shotElapsed := 5 }).2.2.1
    (by decide)

/-! ## C6: the numbering invariant of the store operations -/

theorem updateShotList_map_number (sid : String) (p : ShotPatch) (hp : p.number = none)
    (l : List Shot) :
    (updateShotList sid p l).map Shot.number = l.map Shot.number := by
  induction l with
  | nil => rfl
  | cons a rest ih =>
    simp only [updateShotList, List.map_cons] at ih ⊢
    rw [ih]
    congr 1
    by_cases hc : (a.id == sid) = true
    · simp [hc, applyPatch, hp]
    · simp [hc]

theorem updateShotList_dense (sid : String) (p : ShotPatch) (hp : p.number = none)
    (l : List Shot) (h : dense l) : dense (updateShotList sid p l) := by
  show (updateShotList sid p l).map Shot.number = List.range' 1 (updateShotList sid p l).length
  rw [updateShotList_map_number sid p hp l,
    show (updateShotList sid p l).length = l.length by simp [updateShotList]]
  exact h

theorem addShot_dense (newId : String) (l : List Shot) (h : dense l) :
    dense (addShot newId l) := by
  show (addShot newId l).map Shot.number = List.range' 1 (addShot newId l).length
  simp only [addShot, List.map_append, List.length_append, List.map_cons, List.map_nil,
    List.length_cons, List.length_nil, Nat.zero_add]
  rw [h, List.range'_1_concat, Nat.add_comm 1 l.length]

theorem moveShot_dense (l : List Shot) (i j : Nat) (h : dense l) :
    dense (moveShot l i j) := by
  unfold moveShot
  split
  · exact h
  · cases hget : l.get? i with
    | none => exact h
    | some sh => exact renumber_dense _

/-- **C6 counterexample.** `updateShot` merges an arbitrary `Partial<Shot>`;
a patch carrying a `number` field changes the shot's number directly and
breaks the dense-numbering invariant (no call site in the repository passes
`number`, but the operation itself does not guard against it). -/
theorem updateShot_number_patch_counterexample :
    dense [{ id := "a", number := 1, duration := 2, title := "A", cameraAngle := none,
             imageUrl := none, isGenerating := none, lastGeneratedPrompt := none }] ∧
    (updateShotList "a" { number := some 5 }
        [{ id := "a", number := 1, duration := 2, title := "A", cameraAngle := none,
           imageUrl := none, isGenerating := none, lastGeneratedPrompt := none }]).map
      Shot.number = [5] ∧
    ¬ dense (updateShotList "a" { number := some 5 }
        [{ id := "a", number := 1, duration := 2, title := "A", cameraAngle := none,
           imageUrl := none, isGenerating := none, lastGeneratedPrompt := none }]) := by
  refine ⟨by decide, by decide, by decide⟩

/-- **C6 amended.** `addShot`, `deleteShot` and `moveShot` preserve the dense
numbering `1..len` (`deleteShot` and the reordering branch of `moveShot`
re-establish it unconditionally); `updateShot` preserves every shot's number,
and with it density, whenever the partial update does not itself carry a
`number` field — as at every call site in the repository. -/
theorem numbering_invariant_amended :
    (∀ (newId : String) (l : List Shot), dense l → dense (addShot newId l)) ∧
    (∀ (sid : String) (l : List Shot), dense (deleteShot sid l)) ∧
    (∀ (l : List Shot) (i j : Nat), dense l → dense (moveShot l i j)) ∧
    (∀ (sid : String) (p : ShotPatch) (l : List Shot), p.number = none →
      (updateShotList sid p l).map Shot.number = l.map Shot.number) ∧
    (∀ (sid : String) (p : ShotPatch) (l : List Shot), p.number = none →
      dense l → dense (updateShotList sid p l)) :=
  ⟨addShot_dense, fun _ _ => renumber_dense _, moveShot_dense,
    fun sid p l hp => updateShotList_map_number sid p hp l,
    fun sid p l hp h => updateShotList_dense sid p hp l h⟩

/-- Witness for C6 (amended): moving a shot across the dense demo sequence
keeps the numbering dense. -/
theorem numbering_invariant_amended_witness : dense (moveShot demoABC 0 2) :=
  numbering_invariant_amended.2.2.1 demoABC 0 2 (by decide)

/-! ## C7: moveShot splice semantics -/

/-- **C7.** `moveShot` is a no-op when `fromIndex = toIndex`; for a valid
`fromIndex` it removes the element at `fromIndex`, reinserts it at `toIndex`
(splice, not swap) and renumbers densely from 1; and on shots titled A, B, C
numbered `[1,2,3]`, `moveShot 0 2` yields order B, C, A renumbered
`[1,2,3]`. -/
theorem moveShot_splice :
    (∀ (l : List Shot) (i : Nat), moveShot l i i = l) ∧
    (∀ (l : List Shot) (i j : Nat) (hi : i < l.length), i ≠ j →
      moveShot l i j = renumber (insertAt j (l.get ⟨i, hi⟩) (l.eraseIdx i))) ∧
    (moveShot demoABC 0 2).map (fun s => (s.title, s.number)) =
      [("B", 1), ("C", 2), ("A", 3)] := by
  refine ⟨?_, ?_, by decide⟩
  · intro l i
    simp [moveShot]
  · intro l i j hi hne
    have hget : l[i]? = some (l.get ⟨i, hi⟩) := by
      rw [List.getElem?_eq_getElem hi, List.get_eq_getElem]
    simp [moveShot, hne, List.get?_eq_getElem?, hget]

/-- Witness for C7: moving the first demo shot to position 1 is the splice
followed by renumbering. -/
theorem moveShot_splice_witness :
    moveShot demoABC 0 1 =
      renumber (insertAt 1 (demoABC.get ⟨0, by decide⟩) (demoABC.eraseIdx 0)) :=
  moveShot_splice.2.1 demoABC 0 1 (by decide) (by decide)

/-! ## C8: project/storyboard ownership -/

/-- **C8** (code bug, evaluated at the failing input).  `handleNewProject`
reads the clock separately for the default storyboard's id and for
`activeStoryboardId`.  When the millisecond counter ticks between the two
reads (here 100 → 101), the freshly created project's `activeStoryboardId`
(`sb-101`) references no storyboard it owns (its only storyboard is
`sb-100`), violating the invariant the claim states for project creation. -/
theorem new_project_dangling_active :
    (handleNewProject 100 100 101 []).map
        (fun p => (p.storyboards.map Storyboard.id, p.activeStoryboardId)) =
      [(["sb-100"], "sb-101")] ∧
    ("sb-101" : String) ∉ (["sb-100"] : List String) :=
  ⟨rfl, by decide⟩

/-! ## C9: image-generation failure leaves the shot clean -/

theorem applyPatch_id (p : ShotPatch) (hp : p.id = none) (s : Shot) :
    (applyPatch p s).id = s.id := by
  simp [applyPatch, hp]

theorem find?_updateShotList (sid : String) (p : ShotPatch) (hp : p.id = none) :
    ∀ (l : List Shot) (x : Shot),
      l.find? (fun s => s.id == sid) = some x →
      (updateShotList sid p l).find? (fun s => s.id == sid) = some (applyPatch p x) := by
  intro l
  induction l with
  | nil => intro x hx; simp at hx
  | cons a rest ih =>
    intro x hx
    cases hb : (a.id == sid) with
    | true =>
      simp only [List.find?_cons, hb] at hx
      simp only [Option.some.injEq] at hx
      subst hx
      have hc2 : ((applyPatch p a).id == sid) = true := by
        rw [applyPatch_id p hp]
        exact hb
      simp only [updateShotList, List.map_cons, hb, if_true, List.find?_cons, hc2]
    | false =>
      simp only [List.find?_cons, hb] at hx
      simp only [updateShotList, List.map_cons, hb,
        Bool.false_eq_true, if_false, List.find?_cons]
      exact ih x hx

/-- **C9.** When the image-generation call for a shot resolves to `null`, the
regeneration flow leaves that shot with `imageUrl` cleared and `isGenerating`
false; the flow raises no error (every function involved is total — the
generation client catches its own failures and returns `null`). -/
theorem regenerate_failure_clears (shots : List Shot) (sid : String) (shot : Shot)
    (hfind : shots.find? (fun s => s.id == sid) = some shot)
    (htitle : jsTrim shot.title ≠ "") :
    ∃ s2, (forceRegenerate none sid shots).find? (fun s => s.id == sid) = some s2 ∧
      s2.imageUrl = none ∧ s2.isGenerating = some false := by
  have hres : forceRegenerate none sid shots =
      updateShotList sid
        { isGenerating := some (some false), imageUrl := some (jsOrUndefined none),
          lastGeneratedPrompt := some (some (jsTrim shot.title)) }
        (updateShotList sid { isGenerating := some (some true), imageUrl := some none }
          shots) := by
    unfold forceRegenerate
    rw [hfind]
    dsimp only
    rw [if_neg htitle]
  rw [hres]
  exact ⟨_, find?_updateShotList sid _ rfl _ _ (find?_updateShotList sid _ rfl _ _ hfind),
    rfl, rfl⟩

/-- Witness for C9: a one-shot list whose generation fails ends with the shot
image-free and idle. -/
theorem regenerate_failure_clears_witness :
    ∃ s2, (forceRegenerate none "a"
        [{ id := "a", number := 1, duration := 2, title := "a title", cameraAngle := none,
           imageUrl := some "http", isGenerating := none, lastGeneratedPrompt := none }]).find?
      (fun s => s.id == "a") = some s2 ∧
      s2.imageUrl = none ∧ s2.isGenerating = some false :=
  regenerate_failure_clears
    [{ id := "a", number := 1, duration := 2, title := "a title", cameraAngle := none,
       imageUrl := some "http", isGenerating := none, lastGeneratedPrompt := none }]
    "a"
    { id := "a", number := 1, duration := 2, title := "a title", cameraAngle := none,
      imageUrl := some "http", isGenerating := none, lastGeneratedPrompt := none }
    (by decide) (by decide)

/-! ## C10: the stopping tick and the totalDuration bound -/

theorem durationAt_cons_zero (a : Shot) (l : List Shot) : durationAt (a :: l) 0 = a.duration := by
  simp [durationAt]

theorem durationAt_cons_succ (a : Shot) (l : List Shot) (n : Nat) :
    durationAt (a :: l) (n + 1) = durationAt l n := by
  simp [durationAt]

theorem durationAt_of_lt (shots : List Shot) (i : Nat) (hi : i < shots.length) :
    durationAt shots i = shots[i].duration := by
  simp [durationAt, List.getElem?_eq_getElem hi]

theorem totalDuration_cons (a : Shot) (l : List Shot) :
    totalDuration (a :: l) = a.duration + totalDuration l := by
  simp [totalDuration]

theorem currentShotStartTime_zero (shots : List Shot) : currentShotStartTime shots 0 = 0 := rfl

theorem currentShotStartTime_cons_succ (a : Shot) (l : List Shot) (n : Nat) :
    currentShotStartTime (a :: l) (n + 1) = a.duration + currentShotStartTime l n := by
  simp [currentShotStartTime]

theorem totalDuration_nonneg (shots : List Shot) (hnonneg : ∀ sh ∈ shots, 0 ≤ sh.duration) :
    0 ≤ totalDuration shots :=
  List.sum_nonneg fun x hx => by
    obtain ⟨sh, hsh, rfl⟩ := List.mem_map.mp hx
    exact hnonneg sh hsh

theorem currentShotStartTime_succ (shots : List Shot) :
    ∀ i : Nat, i < shots.length →
      currentShotStartTime shots (i + 1) = currentShotStartTime shots i + durationAt shots i := by
  induction shots with
  | nil => intro i hi; simp at hi
  | cons a rest ih =>
    intro i hi
    cases i with
    | zero =>
      rw [currentShotStartTime_cons_succ, currentShotStartTime_zero,
        currentShotStartTime_zero, durationAt_cons_zero]
      ring
    | succ j =>
      have hj : j < rest.length := by simpa using hi
      rw [currentShotStartTime_cons_succ, currentShotStartTime_cons_succ,
        durationAt_cons_succ, ih j hj]
      ring

theorem shotEndTime_le_totalDuration (shots : List Shot)
    (hnonneg : ∀ sh ∈ shots, 0 ≤ sh.duration) :
    ∀ i : Nat, i < shots.length → shotEndTime shots i ≤ totalDuration shots := by
  induction shots with
  | nil => intro i hi; simp at hi
  | cons a rest ih =>
    intro i hi
    have hr : ∀ sh ∈ rest, 0 ≤ sh.duration := fun sh hsh =>
      hnonneg sh (List.mem_cons_of_mem a hsh)
    cases i with
    | zero =>
      rw [shotEndTime, currentShotStartTime_zero, durationAt_cons_zero, totalDuration_cons]
      have := totalDuration_nonneg rest hr
      linarith
    | succ j =>
      have hj : j < rest.length := by simpa using hi
      have := ih hr j hj
      rw [shotEndTime, currentShotStartTime_cons_succ, durationAt_cons_succ,
        totalDuration_cons]
      rw [shotEndTime] at this
      linarith

/-- The inductive invariant behind the amended C10: while the index is in
range, the stored `elapsedTime` is strictly below the current shot's end
time. -/
theorem tick_preserves_time_inv (shots : List Shot)
    (hd : ∀ sh ∈ shots, tickInterval ≤ sh.duration) (s : PlayerState)
    (hinv : s.currentShotIndex < shots.length ∧
      s.elapsedTime < shotEndTime shots s.currentShotIndex) :
    (tick shots s).currentShotIndex < shots.length ∧
      (tick shots s).elapsedTime < shotEndTime shots (tick shots s).currentShotIndex := by
  obtain ⟨hi, ht⟩ := hinv
  cases hp : s.isPlaying with
  | false =>
    have : tick shots s = s := by simp [tick, hp]
    rw [this]
    exact ⟨hi, ht⟩
  | true =>
    have hchar := tick_step_characterization shots s hp hi
    by_cases hcase : s.elapsedTime + tickInterval < shotEndTime shots s.currentShotIndex
    · rw [hchar.1 hcase]
      exact ⟨hi, hcase⟩
    · have hge : shotEndTime shots s.currentShotIndex ≤ s.elapsedTime + tickInterval :=
        le_of_not_lt hcase
      by_cases hlast : s.currentShotIndex + 1 < shots.length
      · rw [hchar.2.1 hge hlast]
        refine ⟨hlast, ?_⟩
        have hstep : shotEndTime shots (s.currentShotIndex + 1) =
            shotEndTime shots s.currentShotIndex + durationAt shots (s.currentShotIndex + 1) := by
          simp only [shotEndTime]
          rw [currentShotStartTime_succ shots s.currentShotIndex hi]
        have hdur : tickInterval ≤ durationAt shots (s.currentShotIndex + 1) := by
          rw [durationAt_of_lt shots _ hlast]
          exact hd _ (List.getElem_mem hlast)
        rw [hstep]
        show s.elapsedTime + tickInterval <
          shotEndTime shots s.currentShotIndex + durationAt shots (s.currentShotIndex + 1)
        linarith
      · have hlasteq : s.currentShotIndex + 1 = shots.length := by omega
        rw [hchar.2.2 hge hlasteq]
        exact ⟨hi, ht⟩

/-- **C10 counterexample.** The claim's consequence fails for positive
durations shorter than the tick interval: on `shotsTiny` (durations
`[0.05, 0.01]`, both positive) a single tick from the open state drives
`elapsedTime` to 0.1 s, strictly beyond `totalDuration = 0.06` s. -/
theorem short_duration_overrun :
    shotsTiny.map Shot.duration = [1 / 20, 1 / 100] ∧
    (0 : ℚ) < 1 / 20 ∧ (0 : ℚ) < 1 / 100 ∧
    openPlayer shotsTiny =
      some { currentShotIndex := 0, isPlaying := true, elapsedTime := 0 } ∧
    totalDuration shotsTiny <
      ((tick shotsTiny)^[1]
        { currentShotIndex := 0, isPlaying := true, elapsedTime := 0 }).elapsedTime := by
  refine ⟨rfl, by norm_num, by norm_num, rfl, ?_⟩
  · rw [Function.iterate_one,
      (tick_step_characterization shotsTiny
          { currentShotIndex := 0, isPlaying := true, elapsedTime := 0 } rfl (by decide)).2.1
        (by norm_num [shotEndTime, currentShotStartTime, durationAt, shotsTiny, tickInterval])
        (by decide)]
    norm_num [totalDuration, shotsTiny, tickInterval]

/-- **C10 amended.** On the tick that ends playback the engine sets
`isPlaying` to false and leaves `elapsedTime` at its value from before that
tick; and for every sequence in which all shot durations are at least the
tick interval (0.1 s), `elapsedTime` stays strictly below `totalDuration` at
every tick from the open state. -/
theorem stop_tick_amended (shots : List Shot) (s0 : PlayerState)
    (hopen : openPlayer shots = some s0)
    (hd : ∀ sh ∈ shots, tickInterval ≤ sh.duration) :
    (∀ s : PlayerState, s.isPlaying = true → s.currentShotIndex + 1 = shots.length →
      shotEndTime shots s.currentShotIndex ≤ s.elapsedTime + tickInterval →
      tick shots s = { s with isPlaying := false }) ∧
    (∀ k : Nat, ((tick shots)^[k] s0).elapsedTime < totalDuration shots) := by
  obtain ⟨hs0, hlen⟩ := openPlayer_inv shots s0 hopen
  have hnonneg : ∀ sh ∈ shots, 0 ≤ sh.duration := fun sh hsh =>
    le_trans (by norm_num [tickInterval]) (hd sh hsh)
  constructor
  · intro s hp hlast hge
    have hi : s.currentShotIndex < shots.length := by omega
    exact (tick_step_characterization shots s hp hi).2.2 hge hlast
  · intro k
    have hinv : ((tick shots)^[k] s0).currentShotIndex < shots.length ∧
        ((tick shots)^[k] s0).elapsedTime <
          shotEndTime shots ((tick shots)^[k] s0).currentShotIndex := by
      induction k with
      | zero =>
        subst hs0
        refine ⟨by simpa using hlen, ?_⟩
        have h0 : shotEndTime shots 0 = durationAt shots 0 := by
          rw [shotEndTime, currentShotStartTime_zero, zero_add]
        simp only [Function.iterate_zero, id_eq, h0]
        show (0:ℚ) < durationAt shots 0
        rw [durationAt_of_lt shots 0 hlen]
        calc (0:ℚ) < tickInterval := by norm_num [tickInterval]
          _ ≤ _ := hd _ (List.getElem_mem hlen)
      | succ k ih =>
        rw [Function.iterate_succ_apply']
        exact tick_preserves_time_inv shots hd _ ih
    calc ((tick shots)^[k] s0).elapsedTime
        < shotEndTime shots ((tick shots)^[k] s0).currentShotIndex := hinv.2
      _ ≤ totalDuration shots := shotEndTime_le_totalDuration shots hnonneg _ hinv.1

/-- Witness for C10 (amended): on the default sequence (all durations at
least 0.1 s) the elapsed time after three ticks is below the total
duration. -/
theorem stop_tick_amended_witness :
    ((tick demoShots)^[3]
      { currentShotIndex := 0, isPlaying := true, elapsedTime := 0 }).elapsedTime <
      totalDuration demoShots :=
  (stop_tick_amended demoShots
      { currentShotIndex := 0, isPlaying := true, elapsedTime := 0 } rfl
      (by
        intro sh hsh
        simp only [demoShots, List.mem_cons, List.not_mem_nil, or_false] at hsh
        rcases hsh with rfl | rfl | rfl <;> norm_num [tickInterval])).2 3

end SBGen
